import Mathlib

/-!
Shallow embedding of the latency-compensated OSC light scheduler
(`testbulb.py`, class `OSCLightController`).

Times and durations are modelled as rationals (seconds).  The mutable
object state is a `Controller` record threaded explicitly through the
operations.  Each operation below is a direct translation of the body of
the corresponding Python method; clock readings (`time.perf_counter()`)
become explicit rational parameters, ordered as the calls occur in the
source.
-/

namespace PureData

/-- Event dictionary built in `osc_handler`:
`{'sound': ..., 'receive_time': ..., 'event_id': ...}`. -/
structure Event where
  sound : String
  receive_time : ℚ
  event_id : ℕ
deriving DecidableEq, Repr

/-- The `self.stats` dictionary: total event counter, the rolling
`measured_latencies` deque (maxlen 1000), and the early/late counters.
(The `queue_sizes` deque is display-only and never read by the logic
the claims concern, so it is omitted.) -/
structure Stats where
  total : ℕ
  measured_latencies : List ℚ
  early_count : ℕ
  late_count : ℕ
deriving DecidableEq, Repr

/-- State of one `OSCLightController` instance: the configuration and
calibration fields set in `__init__`, the event queue, and the stats. -/
structure Controller where
  pulse_duration : ℚ
  max_queue_size : ℕ
  target_latency : ℚ
  system_overhead : ℚ
  bulb_response_time : ℚ
  osc_receive_delay : ℚ
  intentional_delay : ℚ
  event_queue : List Event
  stats : Stats
deriving DecidableEq, Repr

/-- The `__init__` body (`testbulb.py` lines 12-55): constants
`system_overhead = 0.050`, `bulb_response_time = 0.100`,
`osc_receive_delay = 0.010`, and
`intentional_delay = max(0.001, target_latency - system_overhead - bulb_response_time)`.
Note the initial value is only clamped from below. -/
def initController (pulse_duration : ℚ) (max_queue_size : ℕ)
    (target_latency : ℚ) : Controller :=
  let system_overhead : ℚ := 50/1000
  let bulb_response_time : ℚ := 100/1000
  { pulse_duration := pulse_duration
    max_queue_size := max_queue_size
    target_latency := target_latency
    system_overhead := system_overhead
    bulb_response_time := bulb_response_time
    osc_receive_delay := 10/1000
    intentional_delay :=
      max (1/1000) (target_latency - system_overhead - bulb_response_time)
    event_queue := []
    stats := { total := 0, measured_latencies := [], early_count := 0,
               late_count := 0 } }

/-- The enqueue attempt in `osc_handler` (lines 103-112):
`put(event, block=False)`; on `queue.Full`, `get_nowait()` removes the
oldest entry and the put is retried.  A Python `queue.Queue(maxsize)` is
full iff `maxsize > 0` and it holds at least `maxsize` items; elements
enter at the tail and leave from the head (FIFO). -/
def queuePush (maxsize : ℕ) (q : List Event) (e : Event) : List Event :=
  if 0 < maxsize ∧ maxsize ≤ q.length then q.tail ++ [e] else q ++ [e]

/-- Argument parsing in `osc_handler` (lines 85-88): consecutive pairs
`(args[i], args[i+1])` for even `i`; a trailing unpaired argument is
dropped. -/
def parseArgs : List String → List (String × String)
  | k :: v :: rest => (k, v) :: parseArgs rest
  | _ => []

/-- Python dict lookup after building the dict in insertion order with
later assignments overwriting earlier ones: the value associated with
`k` is the second component of the last pair whose key is `k`. -/
def dictGet (pairs : List (String × String)) (k : String) : Option String :=
  (pairs.reverse.find? (fun p => p.1 == k)).map Prod.snd

/-- `osc_handler` (lines 80-112): parse the arguments, read key `'s'`;
if absent or empty (`if not sound: return`) do nothing; otherwise build
the event with `event_id = stats['total']`, increment `stats['total']`,
and attempt the enqueue.  `receive_time` is the `perf_counter()` reading
taken on entry. -/
def osc_handler (c : Controller) (receive_time : ℚ)
    (args : List String) : Controller :=
  match dictGet (parseArgs args) "s" with
  | none => c
  | some sound =>
    if sound = "" then c
    else
      let event : Event :=
        { sound := sound, receive_time := receive_time,
          event_id := c.stats.total }
      let c1 : Controller :=
        { c with stats := { c.stats with total := c.stats.total + 1 } }
      { c1 with event_queue := queuePush c1.max_queue_size c1.event_queue event }

/-- Append to the `measured_latencies` deque, which has `maxlen=1000`:
when at capacity the oldest sample is evicted. -/
def pushLatency (w : List ℚ) (x : ℚ) : List ℚ :=
  if w.length < 1000 then w ++ [x] else w.tail ++ [x]

/-- The statistics-recording tail of one iteration of
`process_events_with_delay` (lines 141-150): append
`actual_latency = actual_execute_time - receive_time` to the window and
bump the early/late counter when the error against `target_latency`
leaves the ±5 ms band. -/
def recordLatency (c : Controller) (e : Event)
    (actual_execute_time : ℚ) : Controller :=
  let actual_latency := actual_execute_time - e.receive_time
  let latency_error := actual_latency - c.target_latency
  let s0 :=
    { c.stats with
      measured_latencies := pushLatency c.stats.measured_latencies actual_latency }
  let s1 :=
    if latency_error < -(5/1000) then { s0 with early_count := s0.early_count + 1 }
    else if latency_error > 5/1000 then { s0 with late_count := s0.late_count + 1 }
    else s0
  { c with stats := s1 }

/-- Wall-clock instants of one successful iteration of
`process_events_with_delay`, in source order:
`loop_start` is the `perf_counter()` call at the top of the loop
(line 121, bound to `current_time`), `dequeue` is the instant
`event_queue.get` returns the event (line 125; the get may block up to
its timeout, so `loop_start ≤ dequeue`), `execute` is the
`perf_counter()` call after the wait (line 138, bound to
`actual_execute_time`), and `after_actuation` is the instant
`execute_light` (the on-hold-off cycle, line 139) completes. -/
structure CycleTimes where
  loop_start : ℚ
  dequeue : ℚ
  execute : ℚ
  after_actuation : ℚ
deriving DecidableEq, Repr

/-- Observable outcome of one iteration: how long the dispatcher slept,
which sound was actuated, and the updated controller state. -/
structure CycleResult where
  slept : ℚ
  actuated_sound : String
  out : Controller
deriving DecidableEq, Repr

/-- One successful iteration of `process_events_with_delay`
(lines 120-150) on a dequeued event `e`:
`execute_time = receive_time + intentional_delay`;
`wait_time = execute_time - current_time` where `current_time` is the
`loop_start` reading; sleep for `wait_time` iff it is positive; then
actuate the event's sound and record the latency measured at the
`execute` instant. -/
def dispatchCycle (c : Controller) (e : Event) (t : CycleTimes) : CycleResult :=
  let execute_time := e.receive_time + c.intentional_delay
  let wait_time := execute_time - t.loop_start
  let slept := if wait_time > 0 then wait_time else 0
  { slept := slept
    actuated_sound := e.sound
    out := recordLatency c e t.execute }

/-- `update_delay` (lines 216-230): convert the millisecond adjustment
to seconds, add it to `intentional_delay`, and reclamp to
`[0.001, 1.0]`. -/
def update_delay (c : Controller) (adjustment_ms : ℚ) : Controller :=
  let adjustment := adjustment_ms / 1000
  let clamped := max (1/1000) (min 1 (c.intentional_delay + adjustment))
  { c with intentional_delay := clamped }

/-- Outcome reported by `calibrate_automatically`: either the
insufficient-data early return (the printed warning at line 237) or a
performed adjustment of the given number of milliseconds. -/
inductive CalibrationResult where
  | insufficientData
  | adjusted (adjustment_ms : ℚ)
deriving DecidableEq, Repr

/-- `calibrate_automatically` (lines 232-259): with fewer than 10
recorded latencies, warn and return leaving the state untouched;
otherwise compute `error = mean(measured_latencies) - target_latency`,
apply `update_delay(-error * 1000)`, then clear the window and zero the
early/late counters. -/
def calibrate_automatically (c : Controller) : Controller × CalibrationResult :=
  if c.stats.measured_latencies.length < 10 then
    (c, CalibrationResult.insufficientData)
  else
    let avg_measured :=
      c.stats.measured_latencies.sum / (c.stats.measured_latencies.length : ℚ)
    let error := avg_measured - c.target_latency
    let adjustment_ms := -error * 1000
    let c1 := update_delay c adjustment_ms
    let s2 : Stats :=
      { c1.stats with
          measured_latencies := []
          early_count := 0
          late_count := 0 }
    ({ c1 with stats := s2 }, CalibrationResult.adjusted adjustment_ms)

/-- Denominator used by `print_stats` (line 205):
`total = max(1, self.stats['total'])`. -/
def statsDenom (c : Controller) : ℕ := max 1 c.stats.total

/-- `early_pct` as printed by `print_stats` (line 206). -/
def earlyPct (c : Controller) : ℚ :=
  (c.stats.early_count : ℚ) / (statsDenom c : ℚ) * 100

/-- `late_pct` as printed by `print_stats` (line 207). -/
def latePct (c : Controller) : ℚ :=
  (c.stats.late_count : ℚ) / (statsDenom c : ℚ) * 100

/-- Interleaved history of the producer side (`osc_handler` enqueues)
and the consumer side (`process_events_with_delay` dequeues). -/
inductive Op where
  | push (e : Event)
  | pop
deriving DecidableEq, Repr

/-- Queue contents together with the sequence of events the dispatcher
has pulled so far, in dispatch order. -/
structure SysState where
  queue : List Event
  dispatched : List Event
deriving DecidableEq, Repr

/-- One interleaving step: a push runs the overflow-evicting enqueue; a
pop hands the head of the queue to the dispatcher (on an empty queue the
get times out, `queue.Empty` is caught, and nothing is dispatched). -/
def step (maxsize : ℕ) (s : SysState) : Op → SysState
  | Op.push e => { s with queue := queuePush maxsize s.queue e }
  | Op.pop =>
    match s.queue with
    | [] => s
    | e :: rest => { queue := rest, dispatched := s.dispatched ++ [e] }

/-- Run a history of operations from the empty initial state. -/
def run (maxsize : ℕ) (ops : List Op) : SysState :=
  ops.foldl (step maxsize) { queue := [], dispatched := [] }

/-- The events pushed in a history, in push order. -/
def pushedEvents : List Op → List Event
  | [] => []
  | Op.push e :: rest => e :: pushedEvents rest
  | Op.pop :: rest => pushedEvents rest

end PureData

namespace PureData

/-! ### Concrete fixtures used by counterexamples and witnesses -/

/-- Controller built with the default configuration of `main`:
`pulse_duration = 0.05`, `max_queue_size = 100`, `target_latency = 0.250`;
its `intentional_delay` is `0.100`. -/
def cDefault : Controller := initController (5/100) 100 (250/1000)

/-- Controller holding ten recorded latencies of 0.300 s. -/
def cCal : Controller :=
  { cDefault with
      stats := { total := 20, measured_latencies := List.replicate 10 (3/10),
                 early_count := 2, late_count := 3 } }

/-- Controller with four submissions counted, one early and two late. -/
def cStats4 : Controller :=
  { cDefault with
      stats := { total := 4, measured_latencies := [], early_count := 1,
                 late_count := 2 } }

/-- A bass-drum event received at time 0. -/
def eBD : Event := { sound := "bd", receive_time := 0, event_id := 0 }

/-- Event number n, received at time n. -/
def ev (n : ℕ) : Event := { sound := "bd", receive_time := (n : ℚ), event_id := n }

/-- Cycle instants for dispatching `eBD` with `cDefault`: the loop-top
clock reading is 0, the blocking get returns 1 ms later, the dispatcher
sleeps 100 ms, samples the clock at 101 ms, and the 80 ms on-hold-off
actuation finishes at 181 ms. -/
def tCycle : CycleTimes :=
  { loop_start := 0, dequeue := 1/1000, execute := 101/1000,
    after_actuation := 181/1000 }

/-- Cycle instants for an event that is already late: the loop-top
reading is at 5 s, far past the deadline of `eBD`. -/
def tLate : CycleTimes :=
  { loop_start := 5, dequeue := 5, execute := 5 + 1/1000,
    after_actuation := 5 + 81/1000 }

/-- History with overflow at capacity 2: three pushes, then three pops. -/
def opsW : List Op :=
  [Op.push (ev 0), Op.push (ev 1), Op.push (ev 2), Op.pop, Op.pop, Op.pop]

/-! ### Helper lemmas -/

/-- A single overflow-evicting push keeps the queue within capacity. -/
lemma queuePush_length_le (maxsize : ℕ) (hmax : 0 < maxsize) (q : List Event)
    (e : Event) (hq : q.length ≤ maxsize) :
    (queuePush maxsize q e).length ≤ maxsize := by
  unfold queuePush
  split_ifs with h
  · rcases q with _ | ⟨a, q⟩
    · simp at h
      omega
    · simp only [List.tail_cons, List.length_append, List.length_cons,
        List.length_nil] at hq ⊢
      omega
  · push_neg at h
    simp only [List.length_append, List.length_cons, List.length_nil]
    have := h hmax
    omega

/-- Folding pushes preserves the capacity bound. -/
lemma foldl_queuePush_length_le (maxsize : ℕ) (hmax : 0 < maxsize) :
    ∀ (pushes : List Event) (q : List Event), q.length ≤ maxsize →
      (pushes.foldl (queuePush maxsize) q).length ≤ maxsize
  | [], _, hq => hq
  | e :: rest, q, hq =>
    foldl_queuePush_length_le maxsize hmax rest (queuePush maxsize q e)
      (queuePush_length_le maxsize hmax q e hq)

/-- One adjustment lands inside the clamp interval. -/
lemma update_delay_bounds (c : Controller) (d : ℚ) :
    1/1000 ≤ (update_delay c d).intentional_delay ∧
    (update_delay c d).intentional_delay ≤ 1 := by
  unfold update_delay
  exact ⟨le_max_left _ _, max_le (by norm_num) (min_le_left _ _)⟩

/-- Any further adjustments stay inside the clamp interval. -/
lemma foldl_update_delay_bounds :
    ∀ (deltas : List ℚ) (c : Controller),
      1/1000 ≤ c.intentional_delay → c.intentional_delay ≤ 1 →
      1/1000 ≤ (deltas.foldl update_delay c).intentional_delay ∧
      (deltas.foldl update_delay c).intentional_delay ≤ 1
  | [], _, h1, h2 => ⟨h1, h2⟩
  | d :: rest, c, _, _ =>
    foldl_update_delay_bounds rest (update_delay c d)
      (update_delay_bounds c d).1 (update_delay_bounds c d).2

/-- Appending to the rolling window always puts the new sample last. -/
lemma pushLatency_getLast (w : List ℚ) (x : ℚ) :
    (pushLatency w x).getLast? = some x := by
  unfold pushLatency
  split_ifs <;> simp

/-- The window after `recordLatency` is the pushed window, whichever
early/late branch is taken. -/
lemma recordLatency_window (c : Controller) (e : Event) (t : ℚ) :
    (recordLatency c e t).stats.measured_latencies =
      pushLatency c.stats.measured_latencies (t - e.receive_time) := by
  simp only [recordLatency]
  split_ifs <;> rfl

/-- The default controller's compensation delay is 100 ms. -/
lemma cDefault_delay : cDefault.intentional_delay = 1/10 := by
  show max (1/1000 : ℚ) (250/1000 - 50/1000 - 100/1000) = 1/10
  rw [show (250/1000 - 50/1000 - 100/1000 : ℚ) = 1/10 by norm_num]
  exact max_eq_right (by norm_num)

/-- The slept duration of a cycle, written out. -/
lemma dispatchCycle_slept (c : Controller) (e : Event) (t : CycleTimes) :
    (dispatchCycle c e t).slept =
      if e.receive_time + c.intentional_delay - t.loop_start > 0
      then e.receive_time + c.intentional_delay - t.loop_start else 0 := rfl

/-- The controller coming out of a cycle is the recorded one. -/
lemma dispatchCycle_out (c : Controller) (e : Event) (t : CycleTimes) :
    (dispatchCycle c e t).out = recordLatency c e t.execute := rfl

/-- Invariant of the interleaving semantics: the dispatched events
followed by the still-queued events form a sublist of the events pushed
so far. -/
lemma run_dispatched_queue_sublist (maxsize : ℕ) :
    ∀ (ops : List Op) (s : SysState),
      ((ops.foldl (step maxsize) s).dispatched ++
        (ops.foldl (step maxsize) s).queue).Sublist
        ((s.dispatched ++ s.queue) ++ pushedEvents ops)
  | [], s => by
    simp only [List.foldl_nil, pushedEvents, List.append_nil]
    exact List.Sublist.refl _
  | Op.pop :: rest, s => by
    rw [List.foldl_cons]
    refine (run_dispatched_queue_sublist maxsize rest (step maxsize s Op.pop)).trans ?_
    rcases hq : s.queue with _ | ⟨e, q⟩
    · simp [step, hq, pushedEvents]
    · simp only [step, hq, pushedEvents]
      have heq : (s.dispatched ++ [e]) ++ q = s.dispatched ++ (e :: q) := by simp
      rw [heq]
  | Op.push e :: rest, s => by
    rw [List.foldl_cons]
    refine (run_dispatched_queue_sublist maxsize rest (step maxsize s (Op.push e))).trans ?_
    simp only [step, pushedEvents]
    have hcore : (s.dispatched ++ queuePush maxsize s.queue e).Sublist
        ((s.dispatched ++ s.queue) ++ [e]) := by
      unfold queuePush
      rw [List.append_assoc]
      split_ifs
      · exact List.Sublist.append (List.Sublist.refl _)
          (List.Sublist.append (List.tail_sublist _) (List.Sublist.refl _))
      · exact List.Sublist.refl _
    have hcons : e :: pushedEvents rest = [e] ++ pushedEvents rest := rfl
    rw [hcons, ← List.append_assoc]
    exact List.Sublist.append hcore (List.Sublist.refl _)

end PureData

namespace PureData

/-! ### Claims -/

/-- C1 (counterexample): the dispatcher does not compute the wait
against the instant the event was received from the queue.  In this
concrete cycle the get returns 1 ms after the loop-top clock reading;
the claim's formula gives a positive wait of 99 ms, yet the code sleeps
100 ms, because `current_time` was sampled before the blocking get. -/
theorem dispatch_wait_not_dequeue_time_cex :
    tCycle.loop_start ≤ tCycle.dequeue ∧
    0 < eBD.receive_time + cDefault.intentional_delay - tCycle.dequeue ∧
    (dispatchCycle cDefault eBD tCycle).slept ≠
      eBD.receive_time + cDefault.intentional_delay - tCycle.dequeue := by
  have h1 : eBD.receive_time = 0 := rfl
  have h2 : tCycle.dequeue = 1/1000 := rfl
  have h3 : tCycle.loop_start = 0 := rfl
  refine ⟨?_, ?_, ?_⟩
  · rw [h3, h2]
    norm_num
  · rw [h1, h2, cDefault_delay]
    norm_num
  · rw [dispatchCycle_slept, h1, h3, h2, cDefault_delay]
    split_ifs <;> norm_num

/-- C1 (amended): for every dequeued event the dispatcher computes
`deadline = receive_time + intentional_delay` (reading the current
delay) and `wait = deadline - now` where `now` is the clock reading
taken at the top of the loop iteration, before the blocking dequeue; it
sleeps exactly `wait` when positive, sleeps nothing when `wait ≤ 0`, and
in either case still actuates the event and records its latency. -/
theorem dispatch_wait_uses_loop_start_time (c : Controller) (e : Event)
    (t : CycleTimes) :
    (0 < e.receive_time + c.intentional_delay - t.loop_start →
      (dispatchCycle c e t).slept =
        e.receive_time + c.intentional_delay - t.loop_start) ∧
    (e.receive_time + c.intentional_delay - t.loop_start ≤ 0 →
      (dispatchCycle c e t).slept = 0) ∧
    (dispatchCycle c e t).actuated_sound = e.sound ∧
    (dispatchCycle c e t).out.stats.measured_latencies =
      pushLatency c.stats.measured_latencies (t.execute - e.receive_time) := by
  refine ⟨?_, ?_, rfl, recordLatency_window c e t.execute⟩
  · intro h
    simp only [dispatchCycle]
    split_ifs with hc
    · rfl
    · exact absurd h hc
  · intro h
    simp only [dispatchCycle]
    split_ifs with hc
    · exact absurd hc (not_lt.mpr h)
    · rfl

/-- C1 witness: an on-time cycle sleeps the full 100 ms and a late
cycle does not sleep. -/
theorem dispatch_wait_uses_loop_start_time_witness :
    (dispatchCycle cDefault eBD tCycle).slept = 1/10 ∧
    (dispatchCycle cDefault eBD tLate).slept = 0 := by
  constructor
  · have h := (dispatch_wait_uses_loop_start_time cDefault eBD tCycle).1
      (by rw [cDefault_delay]; norm_num [eBD, tCycle])
    rw [h, cDefault_delay]
    norm_num [eBD, tCycle]
  · exact (dispatch_wait_uses_loop_start_time cDefault eBD tLate).2.1
      (by rw [cDefault_delay]; norm_num [eBD, tLate])

/-- C2: under a positive capacity, any sequence of pushes keeps the
queue within `max_queue_size`, and a push onto a full queue evicts
exactly the single oldest entry and appends the new one. -/
theorem queue_bounded_and_evicts_oldest (maxsize : ℕ) (q : List Event)
    (pushes : List Event) (hmax : 0 < maxsize) (hq : q.length ≤ maxsize) :
    (pushes.foldl (queuePush maxsize) q).length ≤ maxsize ∧
    ∀ e, q.length = maxsize → queuePush maxsize q e = q.tail ++ [e] := by
  refine ⟨foldl_queuePush_length_le maxsize hmax pushes q hq, ?_⟩
  intro e hfull
  unfold queuePush
  rw [if_pos ⟨hmax, hfull.ge⟩]

/-- C2 witness: capacity 2, two further pushes onto a full queue stay
within bound, and the push of event 2 evicts event 0. -/
theorem queue_bounded_and_evicts_oldest_witness :
    (([ev 2, ev 3]).foldl (queuePush 2) [ev 0, ev 1]).length ≤ 2 ∧
    queuePush 2 [ev 0, ev 1] (ev 2) = [ev 1, ev 2] := by
  have h := queue_bounded_and_evicts_oldest 2 [ev 0, ev 1] [ev 2, ev 3]
    (by decide) (by decide)
  exact ⟨h.1, (h.2 (ev 2) (by decide)).trans rfl⟩

/-- C3 (counterexample): with `target_latency = 2` the constructor sets
`intentional_delay = 1.85`, outside `[0.001, 1.0]` — the initial value
is only clamped from below, never against `maximum_delay`. -/
theorem initial_delay_exceeds_max_cex :
    (initController (5/100) 100 2).intentional_delay = 37/20 ∧
    ¬ (initController (5/100) 100 2).intentional_delay ≤ 1 := by
  have h : (initController (5/100) 100 2).intentional_delay = 37/20 := by
    show max (1/1000 : ℚ) (2 - 50/1000 - 100/1000) = 37/20
    rw [show (2 - 50/1000 - 100/1000 : ℚ) = 37/20 by norm_num]
    exact max_eq_right (by norm_num)
  refine ⟨h, ?_⟩
  rw [h]
  norm_num

/-- C3 (amended): the initial value is
`max(minimum_delay, target_latency - system_overhead - actuator_response_time)`
with only the lower bound applied (it can exceed `maximum_delay` for
large targets), and `intentional_delay` lies in `[0.001, 1.0]` after
every nonempty sequence of adjustments with arbitrary deltas. -/
theorem delay_bounds_after_adjustments (pd : ℚ) (m : ℕ) (tl : ℚ)
    (c : Controller) (d : ℚ) (deltas : List ℚ) :
    (initController pd m tl).intentional_delay =
      max (1/1000) (tl - 50/1000 - 100/1000) ∧
    1/1000 ≤ (deltas.foldl update_delay (update_delay c d)).intentional_delay ∧
    (deltas.foldl update_delay (update_delay c d)).intentional_delay ≤ 1 :=
  ⟨rfl,
   (foldl_update_delay_bounds deltas (update_delay c d)
     (update_delay_bounds c d).1 (update_delay_bounds c d).2).1,
   (foldl_update_delay_bounds deltas (update_delay c d)
     (update_delay_bounds c d).1 (update_delay_bounds c d).2).2⟩

/-- C4: with at least ten recorded samples, auto-calibration reports an
adjustment of `-error·1000` ms where `error = mean - target_latency`,
sets the delay to the clamp of `old - error`, and clears the window and
the early/late counters (leaving the total counter alone). -/
theorem auto_calibrate_applies_neg_error_and_resets (c : Controller)
    (h : 10 ≤ c.stats.measured_latencies.length) :
    (calibrate_automatically c).2 =
      CalibrationResult.adjusted
        (-(c.stats.measured_latencies.sum /
            (c.stats.measured_latencies.length : ℚ) - c.target_latency) * 1000) ∧
    (calibrate_automatically c).1.intentional_delay =
      max (1/1000) (min 1 (c.intentional_delay -
        (c.stats.measured_latencies.sum /
          (c.stats.measured_latencies.length : ℚ) - c.target_latency))) ∧
    (calibrate_automatically c).1.stats.measured_latencies = [] ∧
    (calibrate_automatically c).1.stats.early_count = 0 ∧
    (calibrate_automatically c).1.stats.late_count = 0 ∧
    (calibrate_automatically c).1.stats.total = c.stats.total := by
  have hn : ¬ c.stats.measured_latencies.length < 10 := not_lt.mpr h
  have harith : ∀ a x : ℚ, a + -x * 1000 / 1000 = a - x := by
    intro a x
    ring
  unfold calibrate_automatically
  rw [if_neg hn]
  refine ⟨rfl, ?_, rfl, rfl, rfl, rfl⟩
  show max (1/1000) (min 1 (c.intentional_delay +
      -(c.stats.measured_latencies.sum /
        (c.stats.measured_latencies.length : ℚ) - c.target_latency) * 1000 / 1000)) = _
  rw [harith]

/-- C4 witness: ten samples of 300 ms against a 250 ms target reduce
the delay from 100 ms to 50 ms, report a -50 ms adjustment, and clear
the window. -/
theorem auto_calibrate_applies_neg_error_and_resets_witness :
    (calibrate_automatically cCal).1.intentional_delay = 1/20 ∧
    (calibrate_automatically cCal).1.stats.measured_latencies = [] ∧
    (calibrate_automatically cCal).2 = CalibrationResult.adjusted (-50) := by
  have h := auto_calibrate_applies_neg_error_and_resets cCal (by decide)
  have hdelay : cCal.intentional_delay = 1/10 := cDefault_delay
  have hsum : cCal.stats.measured_latencies.sum = 3 := by
    show (List.replicate 10 (3/10 : ℚ)).sum = 3
    rw [List.sum_replicate]
    norm_num
  have hlen : (cCal.stats.measured_latencies.length : ℚ) = 10 := by
    show ((List.replicate 10 (3/10 : ℚ)).length : ℚ) = 10
    rw [List.length_replicate]
    norm_num
  have htarget : cCal.target_latency = 1/4 := by
    show (250/1000 : ℚ) = 1/4
    norm_num
  refine ⟨h.2.1.trans ?_, h.2.2.1, h.1.trans ?_⟩
  · rw [hsum, hlen, hdelay, htarget]
    rw [show (1/10 : ℚ) - (3 / 10 - 1/4) = 1/20 by norm_num]
    rw [min_eq_right (by norm_num), max_eq_right (by norm_num)]
  · rw [hsum, hlen, htarget]
    rw [show -((3 : ℚ) / 10 - 1/4) * 1000 = -50 by norm_num]

/-- C5: with fewer than ten recorded samples, auto-calibration returns
the state completely unchanged and reports the insufficient-data
condition, without any fatal error. -/
theorem auto_calibrate_insufficient_data_noop (c : Controller)
    (h : c.stats.measured_latencies.length < 10) :
    calibrate_automatically c = (c, CalibrationResult.insufficientData) := by
  simp only [calibrate_automatically, if_pos h]

/-- C5 witness: the freshly constructed controller has no samples, so
calibration is a no-op reporting insufficient data. -/
theorem auto_calibrate_insufficient_data_noop_witness :
    calibrate_automatically cDefault = (cDefault, CalibrationResult.insufficientData) :=
  auto_calibrate_insufficient_data_noop cDefault (by decide)

/-- C6 (counterexample): the latency sample is not measured after the
actuation: in this concrete cycle the on-hold-off cycle ends 80 ms
after the pre-actuation clock reading, and the recorded sample is
101 ms, not the 181 ms the claim's formula yields. -/
theorem recorded_latency_not_after_actuation_cex :
    tCycle.execute < tCycle.after_actuation ∧
    (dispatchCycle cDefault eBD tCycle).out.stats.measured_latencies.getLast? ≠
      some (tCycle.after_actuation - eBD.receive_time) := by
  constructor
  · show (101/1000 : ℚ) < 181/1000
    norm_num
  · rw [dispatchCycle_out, recordLatency_window, pushLatency_getLast]
    intro hcontra
    have heq := Option.some.inj hcontra
    rw [show tCycle.execute = 101/1000 from rfl,
      show tCycle.after_actuation = 181/1000 from rfl,
      show eBD.receive_time = 0 from rfl] at heq
    norm_num at heq

/-- C6 (amended): the recorded sample is
`measured_latency = now() - receive_time` with `now()` taken after the
wait but immediately before the actuation step, and it is nonnegative
whenever the clock reading is at or after the event's receive time. -/
theorem recorded_latency_pre_actuation_nonneg (c : Controller) (e : Event)
    (t : CycleTimes) (h : e.receive_time ≤ t.execute) :
    (dispatchCycle c e t).out.stats.measured_latencies.getLast? =
      some (t.execute - e.receive_time) ∧
    ∀ l, (dispatchCycle c e t).out.stats.measured_latencies.getLast? = some l →
      0 ≤ l := by
  have hw : (dispatchCycle c e t).out.stats.measured_latencies =
      pushLatency c.stats.measured_latencies (t.execute - e.receive_time) :=
    recordLatency_window c e t.execute
  constructor
  · rw [hw]
    exact pushLatency_getLast _ _
  · intro l hl
    rw [hw, pushLatency_getLast] at hl
    obtain rfl := Option.some.inj hl
    exact sub_nonneg.mpr h

/-- C6 witness: the concrete cycle records 101 ms, a nonnegative
sample. -/
theorem recorded_latency_pre_actuation_nonneg_witness :
    (dispatchCycle cDefault eBD tCycle).out.stats.measured_latencies.getLast? =
      some (101/1000) ∧ (0 : ℚ) ≤ 101/1000 := by
  have h := recorded_latency_pre_actuation_nonneg cDefault eBD tCycle
    (by norm_num [eBD, tCycle])
  have heq : some (tCycle.execute - eBD.receive_time) = some ((101 : ℚ)/1000) := by
    rw [show tCycle.execute = 101/1000 from rfl, show eBD.receive_time = 0 from rfl]
    norm_num
  exact ⟨h.1.trans heq, h.2 (101/1000) (h.1.trans heq)⟩

/-- C7: over any interleaving of pushes and dispatcher pops, the
dispatched sequence is a sublist of the push sequence — survivors are
dispatched exactly in push order, never reordered — and when pushes
arrive with monotone receive times the dispatched receive times are
monotone too. -/
theorem dispatch_order_sublist_of_push_order (maxsize : ℕ) (ops : List Op)
    (hmono : (pushedEvents ops).Pairwise
      (fun a b => a.receive_time ≤ b.receive_time)) :
    (run maxsize ops).dispatched.Sublist (pushedEvents ops) ∧
    (run maxsize ops).dispatched.Pairwise
      (fun a b => a.receive_time ≤ b.receive_time) := by
  have hsub : ((run maxsize ops).dispatched ++
      (run maxsize ops).queue).Sublist (pushedEvents ops) := by
    have h := run_dispatched_queue_sublist maxsize ops
      { queue := [], dispatched := [] }
    simpa using h
  have hd : (run maxsize ops).dispatched.Sublist (pushedEvents ops) :=
    (List.sublist_append_left _ _).trans hsub
  exact ⟨hd, List.Pairwise.sublist hd hmono⟩

/-- C7 witness: capacity 2, three pushes then three pops; event 0 is
evicted and events 1 and 2 are dispatched in order. -/
theorem dispatch_order_sublist_of_push_order_witness :
    (run 2 opsW).dispatched.Sublist (pushedEvents opsW) ∧
    (run 2 opsW).dispatched.Pairwise
      (fun a b => a.receive_time ≤ b.receive_time) :=
  dispatch_order_sublist_of_push_order 2 opsW (by
    rw [show pushedEvents opsW = [ev 0, ev 1, ev 2] from rfl]
    norm_num [List.pairwise_cons, ev])

/-- C8: a manual adjustment touches only `intentional_delay`: the
statistics (total, window, early and late counters), the target, the
overhead and response constants, the queue, and the remaining
configuration are all unchanged. -/
theorem update_delay_frame (c : Controller) (a : ℚ) :
    (update_delay c a).stats = c.stats ∧
    (update_delay c a).target_latency = c.target_latency ∧
    (update_delay c a).system_overhead = c.system_overhead ∧
    (update_delay c a).bulb_response_time = c.bulb_response_time ∧
    (update_delay c a).osc_receive_delay = c.osc_receive_delay ∧
    (update_delay c a).event_queue = c.event_queue ∧
    (update_delay c a).pulse_duration = c.pulse_duration ∧
    (update_delay c a).max_queue_size = c.max_queue_size :=
  ⟨rfl, rfl, rfl, rfl, rfl, rfl, rfl, rfl⟩

/-- C9: a message whose arguments carry no sound key, or an empty
sound value, leaves the controller completely unchanged: nothing is
enqueued and no counter moves. -/
theorem osc_handler_no_sound_noop (c : Controller) (rt : ℚ)
    (args : List String)
    (h : dictGet (parseArgs args) "s" = none ∨
      dictGet (parseArgs args) "s" = some "") :
    osc_handler c rt args = c := by
  unfold osc_handler
  rcases h with h | h
  · rw [h]
  · rw [h]
    exact rfl

/-- C9 witness: a message without an s key and one with an empty sound
both leave the default controller unchanged. -/
theorem osc_handler_no_sound_noop_witness :
    osc_handler cDefault 7 ["n", "1"] = cDefault ∧
    osc_handler cDefault 7 ["s", ""] = cDefault :=
  ⟨osc_handler_no_sound_noop cDefault 7 ["n", "1"] (Or.inl (by decide)),
   osc_handler_no_sound_noop cDefault 7 ["s", ""] (Or.inr (by decide))⟩

/-- C10: every submission carrying a sound label increments the total
counter exactly once, before the enqueue attempt (the event itself
carries the pre-increment value), eviction on a full queue never
decrements it, and the printed early/late percentages divide by the
submission total whenever at least one submission happened. -/
theorem osc_handler_counts_submissions (c : Controller) (rt : ℚ)
    (args : List String) (sound : String)
    (hs : dictGet (parseArgs args) "s" = some sound) (hne : sound ≠ "") :
    (osc_handler c rt args).stats.total = c.stats.total + 1 ∧
    (osc_handler c rt args).event_queue =
      queuePush c.max_queue_size c.event_queue
        { sound := sound, receive_time := rt, event_id := c.stats.total } ∧
    (1 ≤ c.stats.total →
      earlyPct c = (c.stats.early_count : ℚ) / (c.stats.total : ℚ) * 100 ∧
      latePct c = (c.stats.late_count : ℚ) / (c.stats.total : ℚ) * 100) := by
  refine ⟨?_, ?_, ?_⟩
  · simp only [osc_handler, hs, if_neg hne]
  · simp only [osc_handler, hs, if_neg hne]
  · intro h1
    unfold earlyPct latePct statsDenom
    rw [max_eq_right h1]
    exact ⟨rfl, rfl⟩

/-- C10 witness: a fifth submission on a controller with four counted
submissions, one early and two late, bumps the total to five; the
printed percentages are 25% early and 50% late. -/
theorem osc_handler_counts_submissions_witness :
    (osc_handler cStats4 7 ["s", "bd"]).stats.total = 5 ∧
    earlyPct cStats4 = 25 ∧ latePct cStats4 = 50 := by
  have h := osc_handler_counts_submissions cStats4 7 ["s", "bd"] "bd"
    (by decide) (by decide)
  have hearly : (cStats4.stats.early_count : ℚ) = 1 := by
    norm_num [cStats4]
  have hlate : (cStats4.stats.late_count : ℚ) = 2 := by
    norm_num [cStats4]
  have htotal : (cStats4.stats.total : ℚ) = 4 := by
    norm_num [cStats4]
  refine ⟨h.1.trans rfl, ?_, ?_⟩
  · refine (h.2.2 (by decide)).1.trans ?_
    rw [hearly, htotal]
    norm_num
  · refine (h.2.2 (by decide)).2.trans ?_
    rw [hlate, htotal]
    norm_num

end PureData
